import Mathlib

/-!
Verification of the RCU (read-copy-update) cell implemented in `src/src/main.rs`.

The Rust code manages raw heap pointers (`Box::into_raw` / `Box::from_raw`)
behind three atomics: `data_ptr` (the current value), `prev_ptr` (the identity
of the most recently installed value, used as the CAS expected value),
`cur_readers` (the in-flight reader count) and `write_flag` (the write gate).

The embedding models the allocator as a bump heap of numbered cells (address 0
plays the role of the null pointer and is never handed out, matching
`Box::into_raw`, which never returns null).  Operations are given a sequential
(single-thread, atomic-step) semantics: a spin loop whose exit condition is
false in the current state would spin forever in a sequential execution, and a
dereference or a free of a non-live pointer is undefined behaviour; both are
modelled as `none`.  Each operation also records the trace of the shared-state
actions it performs, so that ordering claims about the writer protocol can be
stated.
-/

namespace RcuModel

/-- `AtomicU32::fetch_add(1, _)`: 32-bit wrap-around increment. -/
def fetchAdd32 (c : Nat) : Nat := (c + 1) % 2 ^ 32

/-- `AtomicU32::fetch_sub(1, _)`: 32-bit wrap-around decrement. -/
def fetchSub32 (c : Nat) : Nat := (c + (2 ^ 32 - 1)) % 2 ^ 32

/-- The allocator: a bump heap of live cells.  `cells` associates each live
address with the value stored there; `next` is the next fresh address.
Address `0` is never allocated and models the null pointer. -/
structure Heap (T : Type) where
  cells : List (Nat × T)
  next : Nat

/-- The empty heap; allocation starts at address 1, so 0 models null. -/
def Heap.empty {T : Type} : Heap T := ⟨[], 1⟩

/-- The value stored at address `a`, if `a` is live. -/
def Heap.lookup {T : Type} (h : Heap T) (a : Nat) : Option T :=
  (h.cells.find? (fun p => p.1 == a)).map (fun p => p.2)

/-- `Box::into_raw (Box::new v)`: allocate a fresh cell holding `v`,
returning its address and the new heap. -/
def Heap.alloc {T : Type} (h : Heap T) (v : T) : Nat × Heap T :=
  (h.next, ⟨(h.next, v) :: h.cells, h.next + 1⟩)

/-- `drop (Box::from_raw a)`: free the cell at `a`.  Freeing an address that
is not live is undefined behaviour (`none`): this is how a double free or a
free of a dangling pointer shows up in the model. -/
def Heap.free {T : Type} (h : Heap T) (a : Nat) : Option (Heap T) :=
  if h.cells.any (fun p => p.1 == a) then
    some ⟨h.cells.filter (fun p => p.1 != a), h.next⟩
  else
    none

/-- Well-formedness of the bump heap: live addresses are nonzero, below the
bump index, and pairwise distinct. -/
def Heap.wf {T : Type} (h : Heap T) : Prop :=
  0 < h.next ∧ (h.cells.map Prod.fst).Nodup ∧
    ∀ p ∈ h.cells, 0 < p.1 ∧ p.1 < h.next

/-- One shared-state action of a reader or writer, recorded in traces. -/
inductive Event
  /-- A spin loop on `write_flag` observed `false` and was passed. -/
  | gatePass
  /-- `cur_readers.fetch_add(1, SeqCst)` (reader registration). -/
  | incReaders
  /-- Dereference of the data pointer (the `unsafe` clone site). -/
  | deref (a : Nat)
  /-- `cur_readers.fetch_sub(1, SeqCst)` (reader unregistration). -/
  | decReaders
  /-- `Box::into_raw(Box::new(new_val))` produced address `a`. -/
  | allocBox (a : Nat)
  /-- `prev_ptr.load(Acquire)` returned `a`. -/
  | loadPrev (a : Nat)
  /-- The compare-and-swap on `data_ptr` succeeded, swapping `old` for `neo`. -/
  | casOk (old neo : Nat)
  /-- The compare-and-swap on `data_ptr` failed: current `cur`, expected
  `expected`, rejected allocation `neo`. -/
  | casFail (cur expected neo : Nat)
  /-- `write_flag.store(true, Release)`: the write gate is set. -/
  | setGate
  /-- The spin loop on `cur_readers` observed `0` and was passed. -/
  | drained
  /-- `prev_ptr.store(a, Release)`. -/
  | storePrev (a : Nat)
  /-- `drop(Box::from_raw(a))`: the cell at `a` is freed. -/
  | freeBox (a : Nat)
  /-- `write_flag.store(false, Release)`: the write gate is cleared. -/
  | clearGate
deriving DecidableEq, Repr

/-- The state of one `Rcu<T>` together with the allocator it draws from:
the four atomic fields of the Rust struct, with pointers as heap addresses. -/
structure Rcu (T : Type) where
  heap : Heap T
  data_ptr : Nat
  prev_ptr : Nat
  cur_readers : Nat
  write_flag : Bool

/-- `Rcu::new(value)`: box the value and point both `data_ptr` and `prev_ptr`
at it, with zero readers and the write flag clear. -/
def Rcu.new {T : Type} (value : T) : Rcu T :=
  let a := (Heap.empty.alloc value).1
  let h := (Heap.empty.alloc value).2
  { heap := h, data_ptr := a, prev_ptr := a, cur_readers := 0, write_flag := false }

/-- `Rcu::read`, instrumented with its action trace:
spin while `write_flag` is set (sequentially: diverge, `none`, if it is set);
`fetch_add` the reader count; dereference and clone `data_ptr` (undefined
behaviour, `none`, if it is not live); `fetch_sub` the reader count; return
the clone. -/
def Rcu.readT {T : Type} (r : Rcu T) : Option (List Event × T × Rcu T) :=
  if r.write_flag then none
  else
    let r1 : Rcu T := { r with cur_readers := fetchAdd32 r.cur_readers }
    match r1.heap.lookup r1.data_ptr with
    | none => none
    | some v =>
      let r2 : Rcu T := { r1 with cur_readers := fetchSub32 r1.cur_readers }
      some ([.gatePass, .incReaders, .deref r1.data_ptr, .decReaders], v, r2)

/-- `Rcu::read` without the instrumentation: the returned clone and the state
after the call. -/
def Rcu.read {T : Type} (r : Rcu T) : Option (T × Rcu T) :=
  r.readT.map (fun x => x.2)

/-- `RcuSubscriber::read`, translated from its own source lines (it differs
from `Rcu::read` only in using `Acquire` instead of `SeqCst` for the data
load, which has no sequential content): spin on the subscribed cell's
`write_flag`; `fetch_add` its reader count; dereference and clone its data
pointer; `fetch_sub`; return the clone. -/
def RcuSubscriber.readT {T : Type} (r : Rcu T) : Option (List Event × T × Rcu T) :=
  if r.write_flag then none
  else
    let r1 : Rcu T := { r with cur_readers := fetchAdd32 r.cur_readers }
    match r1.heap.lookup r1.data_ptr with
    | none => none
    | some v =>
      let r2 : Rcu T := { r1 with cur_readers := fetchSub32 r1.cur_readers }
      some ([.gatePass, .incReaders, .deref r1.data_ptr, .decReaders], v, r2)

/-- `Rcu::update`, instrumented with its action trace.  Following the source:
box `new_val` (address `neo`); load `prev_ptr`; spin while `write_flag` is set
(sequentially diverges, `none`); CAS `data_ptr` from `prev` to `neo`.
On success: set the write gate, spin until `cur_readers` is `0` (sequentially
diverges if it is not), store `neo` into `prev_ptr`, free the old data, clear
the gate, return `true`.  On failure: free `neo`, return `false`. -/
def Rcu.updateT {T : Type} (r : Rcu T) (new_val : T) : Option (List Event × Bool × Rcu T) :=
  let neo := (r.heap.alloc new_val).1
  let h1 := (r.heap.alloc new_val).2
  let prev := r.prev_ptr
  if r.write_flag then none
  else if r.data_ptr == prev then
    let old := r.data_ptr
    let r1 : Rcu T := { r with heap := h1, data_ptr := neo, write_flag := true }
    if r1.cur_readers == 0 then
      let r2 : Rcu T := { r1 with prev_ptr := neo }
      match r2.heap.free old with
      | none => none
      | some h2 =>
        some ([.allocBox neo, .loadPrev prev, .gatePass, .casOk old neo, .setGate,
               .drained, .storePrev neo, .freeBox old, .clearGate],
              true, { r2 with heap := h2, write_flag := false })
    else none
  else
    match h1.free neo with
    | none => none
    | some h2 =>
      some ([.allocBox neo, .loadPrev prev, .gatePass, .casFail r.data_ptr prev neo,
             .freeBox neo],
            false, { r with heap := h2 })

/-- `Rcu::update` without the instrumentation: the boolean result and the
state after the call. -/
def Rcu.update {T : Type} (r : Rcu T) (new_val : T) : Option (Bool × Rcu T) :=
  (r.updateT new_val).map (fun x => x.2)

/-- The states a cell can be in between public operations of a sequential
execution: freshly constructed, or the completed result of a `read` or an
`update` from such a state. -/
inductive Reachable {T : Type} : Rcu T → Prop
  | new (v : T) : Reachable (Rcu.new v)
  | read {r : Rcu T} {v : T} {r' : Rcu T} :
      Reachable r → Rcu.read r = some (v, r') → Reachable r'
  | update {r : Rcu T} {w : T} {b : Bool} {r' : Rcu T} :
      Reachable r → Rcu.update r w = some (b, r') → Reachable r'

/-- The cell invariant between public operations: well-formed heap, a live
non-null current pointer, `prev_ptr` equal to `data_ptr`, no registered
readers, gate clear. -/
def Rcu.WF {T : Type} (r : Rcu T) : Prop :=
  r.heap.wf ∧ (∃ v, r.heap.lookup r.data_ptr = some v) ∧
    r.prev_ptr = r.data_ptr ∧ r.cur_readers = 0 ∧ r.write_flag = false

/-- The reclamation-protocol actions named by the writer contract: gate
writes, the drain of the reader counter, and frees. -/
def Event.isReclaim : Event → Bool
  | .setGate => true
  | .drained => true
  | .freeBox _ => true
  | .clearGate => true
  | _ => false

/-- Write-gate actions. -/
def Event.isGate : Event → Bool
  | .setGate => true
  | .clearGate => true
  | _ => false

/-- Free actions. -/
def Event.isFree : Event → Bool
  | .freeBox _ => true
  | _ => false

/-- Modelled from the spec: the guard-based generation variant (spec section
4.4 and the "Guard variant zero-crossing" property) is one of the source's
earlier iterations and is not under `src/`.  A generation pairs a protected
value with its own quiescence counter; the outstanding read guards are
carried here by id, the counter being their number, and `freed` records
whether the generation's storage has been deallocated. -/
structure GenState (T : Type) where
  value : T
  live : List Nat
  freed : Bool

/-- Modelled from the spec: releasing guard `i` decrements the generation's
own counter (removes `i` from the outstanding guards); if that transitions
the counter from one to zero, the releasing guard itself deallocates the
generation.  The returned `Bool` records whether this release performed the
free.  Releasing a guard that is not outstanding, or any access to an
already-freed generation, is a fault (`none`). -/
def GenState.release {T : Type} (g : GenState T) (i : Nat) : Option (GenState T × Bool) :=
  if g.freed then none
  else if i ∈ g.live then
    let live' := g.live.erase i
    if live'.isEmpty then some ({ g with live := live', freed := true }, true)
    else some ({ g with live := live' }, false)
  else none

/-- Release a sequence of guards in the given drop order, counting how many
of the releases performed the free. -/
def GenState.releaseSeq {T : Type} (g : GenState T) : List Nat → Option (GenState T × Nat)
  | [] => some (g, 0)
  | i :: rest =>
    match g.release i with
    | none => none
    | some (g', b) =>
      (g'.releaseSeq rest).map (fun x => (x.1, (if b then 1 else 0) + x.2))

/-! ## Helper lemmas -/

theorem fetch_roundtrip_zero : fetchSub32 (fetchAdd32 0) = 0 := by
  norm_num [fetchAdd32, fetchSub32]

theorem Heap.lookup_cons_self {T : Type} (c : List (Nat × T)) (n a : Nat) (v : T) :
    Heap.lookup ⟨(a, v) :: c, n⟩ a = some v := by
  simp [Heap.lookup, List.find?_cons_of_pos]

theorem Heap.mem_of_lookup {T : Type} {h : Heap T} {a : Nat} {v : T}
    (hl : h.lookup a = some v) : (a, v) ∈ h.cells := by
  unfold Heap.lookup at hl
  obtain ⟨p, hfind, hp2⟩ := Option.map_eq_some'.mp hl
  have hmem := List.mem_of_find?_eq_some hfind
  have hkey : p.1 = a := by
    have := List.find?_some hfind
    simpa using this
  have : p = (a, v) := by
    cases p
    simp_all
  rw [this] at hmem
  exact hmem

theorem Heap.free_of_mem {T : Type} {h : Heap T} {a : Nat} {v : T}
    (hm : (a, v) ∈ h.cells) :
    h.free a = some ⟨h.cells.filter (fun p => p.1 != a), h.next⟩ := by
  unfold Heap.free
  rw [if_pos]
  exact List.any_eq_true.mpr ⟨(a, v), hm, by simp⟩

theorem Rcu.wf_new {T : Type} (v : T) : (Rcu.new v).WF := by
  refine ⟨⟨by norm_num [Rcu.new, Heap.alloc, Heap.empty], ?_, ?_⟩, ⟨v, ?_⟩, rfl, rfl, rfl⟩
  · simp [Rcu.new, Heap.alloc, Heap.empty]
  · simp [Rcu.new, Heap.alloc, Heap.empty]
  · exact Heap.lookup_cons_self [] 2 1 v

theorem Rcu.readT_of_wf {T : Type} {r : Rcu T} {v : T} (hw : r.write_flag = false)
    (hc : r.cur_readers = 0) (hv : r.heap.lookup r.data_ptr = some v) :
    r.readT = some ([.gatePass, .incReaders, .deref r.data_ptr, .decReaders], v, r) := by
  have hround : fetchSub32 (fetchAdd32 r.cur_readers) = r.cur_readers := by
    rw [hc]; exact fetch_roundtrip_zero
  simp only [Rcu.readT, hw, Bool.false_eq_true, if_false, hv, hround]
  rw [← hw]

theorem Rcu.read_of_wf {T : Type} {r : Rcu T} {v : T} (hw : r.write_flag = false)
    (hc : r.cur_readers = 0) (hv : r.heap.lookup r.data_ptr = some v) :
    r.read = some (v, r) := by
  rw [Rcu.read, Rcu.readT_of_wf hw hc hv, Option.map_some']

theorem Rcu.updateT_of_wf {T : Type} {r : Rcu T} {v : T} (w : T)
    (hwf : r.heap.wf) (hv : r.heap.lookup r.data_ptr = some v)
    (hp : r.prev_ptr = r.data_ptr) (hc : r.cur_readers = 0) (hf : r.write_flag = false) :
    r.updateT w =
      some ([.allocBox r.heap.next, .loadPrev r.prev_ptr, .gatePass,
             .casOk r.data_ptr r.heap.next, .setGate, .drained,
             .storePrev r.heap.next, .freeBox r.data_ptr, .clearGate],
            true,
            { heap := ⟨(r.heap.next, w) ::
                         r.heap.cells.filter (fun p => p.1 != r.data_ptr),
                       r.heap.next + 1⟩,
              data_ptr := r.heap.next, prev_ptr := r.heap.next,
              cur_readers := r.cur_readers, write_flag := false }) := by
  have hmem : (r.data_ptr, v) ∈ r.heap.cells := Heap.mem_of_lookup hv
  have hlt : r.data_ptr < r.heap.next := (hwf.2.2 _ hmem).2
  have hne : r.heap.next ≠ r.data_ptr := Nat.ne_of_gt hlt
  have hmem1 : (r.data_ptr, v) ∈ ((r.heap.next, w) :: r.heap.cells) :=
    List.mem_cons_of_mem _ hmem
  have hfree :=
    Heap.free_of_mem (h := ⟨(r.heap.next, w) :: r.heap.cells, r.heap.next + 1⟩) hmem1
  simp only [Rcu.updateT, Heap.alloc, hf, Bool.false_eq_true, if_false, hp,
    beq_self_eq_true, if_true, hc, hfree, List.filter_cons, bne_iff_ne, ne_eq, hne,
    not_false_eq_true, if_true]

theorem Rcu.update_of_wf {T : Type} {r : Rcu T} {v : T} (w : T)
    (hwf : r.heap.wf) (hv : r.heap.lookup r.data_ptr = some v)
    (hp : r.prev_ptr = r.data_ptr) (hc : r.cur_readers = 0) (hf : r.write_flag = false) :
    r.update w =
      some (true,
            { heap := ⟨(r.heap.next, w) ::
                         r.heap.cells.filter (fun p => p.1 != r.data_ptr),
                       r.heap.next + 1⟩,
              data_ptr := r.heap.next, prev_ptr := r.heap.next,
              cur_readers := r.cur_readers, write_flag := false }) := by
  rw [Rcu.update, Rcu.updateT_of_wf w hwf hv hp hc hf, Option.map_some']

theorem Heap.wf_update_result {T : Type} {h : Heap T} (hwf : h.wf) (w : T) (a : Nat) :
    Heap.wf (⟨(h.next, w) :: h.cells.filter (fun p => p.1 != a), h.next + 1⟩ : Heap T) := by
  obtain ⟨hpos, hnd, hbound⟩ := hwf
  refine ⟨Nat.succ_pos _, ?_, ?_⟩
  · rw [List.map_cons, List.nodup_cons]
    constructor
    · intro hmem
      obtain ⟨p, hp, hfst⟩ := List.mem_map.mp hmem
      have hpc : p ∈ h.cells := List.mem_of_mem_filter hp
      have := (hbound p hpc).2
      omega
    · exact hnd.sublist ((List.filter_sublist _).map Prod.fst)
  · intro p hp
    rcases List.mem_cons.mp hp with hh | ht
    · subst hh; exact ⟨hpos, Nat.lt_succ_self _⟩
    · have hpc : p ∈ h.cells := List.mem_of_mem_filter ht
      have := hbound p hpc
      dsimp only
      omega

theorem Rcu.wf_of_update {T : Type} {r : Rcu T} {w : T} {b : Bool} {r' : Rcu T}
    (h : r.WF) (hu : r.update w = some (b, r')) :
    r'.WF ∧ b = true ∧ r'.heap.lookup r'.data_ptr = some w := by
  obtain ⟨hwf, ⟨v, hv⟩, hp, hc, hf⟩ := h
  rw [Rcu.update_of_wf w hwf hv hp hc hf, Option.some_inj] at hu
  obtain ⟨hb, hr'⟩ := Prod.mk.injEq .. ▸ hu
  subst hb
  refine ⟨?_, rfl, ?_⟩
  · rw [← hr']
    exact ⟨Heap.wf_update_result hwf w r.data_ptr,
      ⟨w, Heap.lookup_cons_self _ _ _ w⟩, rfl, hc, rfl⟩
  · rw [← hr']
    exact Heap.lookup_cons_self _ _ _ w

theorem Rcu.wf_of_read {T : Type} {r : Rcu T} {v : T} {r' : Rcu T}
    (h : r.WF) (hu : r.read = some (v, r')) :
    r' = r ∧ r.heap.lookup r.data_ptr = some v := by
  obtain ⟨hwf, ⟨v₀, hv⟩, hp, hc, hf⟩ := h
  rw [Rcu.read_of_wf hf hc hv, Option.some_inj] at hu
  obtain ⟨hveq, hr'⟩ := Prod.mk.injEq .. ▸ hu
  subst hveq
  exact ⟨hr'.symm, hv⟩

theorem Rcu.updateT_cas_fail {T : Type} {r : Rcu T} (w : T)
    (hwf : r.heap.wf) (hf : r.write_flag = false) (hne : r.data_ptr ≠ r.prev_ptr) :
    r.updateT w =
      some ([.allocBox r.heap.next, .loadPrev r.prev_ptr, .gatePass,
             .casFail r.data_ptr r.prev_ptr r.heap.next, .freeBox r.heap.next],
            false, { r with heap := ⟨r.heap.cells, r.heap.next + 1⟩ }) := by
  have hcells : r.heap.cells.filter (fun p => p.1 != r.heap.next) = r.heap.cells := by
    apply List.filter_eq_self.mpr
    intro p hp
    have := (hwf.2.2 p hp).2
    simp only [bne_iff_ne, ne_eq, decide_eq_true_eq]
    omega
  have hfree :
      Heap.free (⟨(r.heap.next, w) :: r.heap.cells, r.heap.next + 1⟩ : Heap T) r.heap.next
        = some ⟨r.heap.cells, r.heap.next + 1⟩ := by
    rw [Heap.free_of_mem (List.mem_cons_self _ _)]
    simp only [List.filter_cons, bne_self_eq_false, Bool.false_eq_true, if_false, hcells]
  have hbeq : (r.data_ptr == r.prev_ptr) = false := by
    simp [hne]
  simp only [Rcu.updateT, Heap.alloc, hf, Bool.false_eq_true, if_false, hbeq, hfree]

theorem Reachable.wf {T : Type} {r : Rcu T} (h : Reachable r) : r.WF := by
  induction h with
  | new v => exact Rcu.wf_new v
  | read _ hread ih =>
    obtain ⟨heq, _⟩ := Rcu.wf_of_read ih hread
    rw [heq]; exact ih
  | update _ hupd ih => exact (Rcu.wf_of_update ih hupd).1

theorem Rcu.lookup_new {T : Type} (v : T) :
    (Rcu.new v).heap.lookup (Rcu.new v).data_ptr = some v := by
  simp only [Rcu.new, Heap.alloc, Heap.empty]
  exact Heap.lookup_cons_self [] 2 1 v

/-! ## The claims -/

/-- C1: `read` on a cell created by `new v` returns `v`; after any successful
`update w` a subsequent `read` returns `w`; and every `read` from a reachable
state returns exactly the value installed at the cell's current pointer,
which is live in the heap — never a freed one. -/
theorem C1_read_returns_installed {T : Type} :
    (∀ v : T, Rcu.read (Rcu.new v) = some (v, Rcu.new v)) ∧
    (∀ (r : Rcu T) (w : T) (r' : Rcu T), Reachable r → r.update w = some (true, r') →
      r'.read = some (w, r')) ∧
    (∀ r : Rcu T, Reachable r → ∃ v : T,
      r.heap.lookup r.data_ptr = some v ∧ r.read = some (v, r)) := by
  refine ⟨?_, ?_, ?_⟩
  · intro v
    exact Rcu.read_of_wf rfl rfl (Rcu.lookup_new v)
  · intro r w r' hr hu
    obtain ⟨⟨hwf', _, hp', hc', hf'⟩, _, hv'⟩ := Rcu.wf_of_update hr.wf hu
    exact Rcu.read_of_wf hf' hc' hv'
  · intro r hr
    obtain ⟨hwf, ⟨v, hv⟩, hp, hc, hf⟩ := hr.wf
    exact ⟨v, hv, Rcu.read_of_wf hf hc hv⟩

/-- C1 witness at `T := Nat`. -/
theorem C1_read_returns_installed_witness :
    Rcu.read (Rcu.new (5 : Nat)) = some (5, Rcu.new 5) ∧
    (Rcu.new (5 : Nat)).update 7 =
      some (true, (⟨⟨[(2, 7)], 3⟩, 2, 2, 0, false⟩ : Rcu Nat)) ∧
    Rcu.read (⟨⟨[(2, 7)], 3⟩, 2, 2, 0, false⟩ : Rcu Nat) =
      some (7, (⟨⟨[(2, 7)], 3⟩, 2, 2, 0, false⟩ : Rcu Nat)) ∧
    (∃ v : Nat, (Rcu.new 5).heap.lookup (Rcu.new 5).data_ptr = some v ∧
      Rcu.read (Rcu.new 5) = some (v, Rcu.new 5)) :=
  ⟨C1_read_returns_installed.1 5,
   rfl,
   C1_read_returns_installed.2.1 (Rcu.new 5) 7 (⟨⟨[(2, 7)], 3⟩, 2, 2, 0, false⟩ : Rcu Nat)
     (Reachable.new 5) rfl,
   C1_read_returns_installed.2.2 (Rcu.new 5) (Reachable.new 5)⟩

/-- C2: on CAS success the writer's reclamation-protocol actions (gate
writes, the observation of the drained reader counter, and frees) are
exactly: set the write gate, observe the reader counter at zero, free the
superseded old version, clear the write gate — in this order, with exactly
one free — and the call returns `true`. -/
theorem C2_success_protocol_order {T : Type} {r : Rcu T} (w : T) (h : r.WF) :
    ∃ tr r', r.updateT w = some (tr, true, r') ∧
      tr = [.allocBox r.heap.next, .loadPrev r.prev_ptr, .gatePass,
            .casOk r.data_ptr r.heap.next, .setGate, .drained,
            .storePrev r.heap.next, .freeBox r.data_ptr, .clearGate] ∧
      tr.filter Event.isReclaim =
        [.setGate, .drained, .freeBox r.data_ptr, .clearGate] ∧
      (tr.filter Event.isFree).length = 1 := by
  obtain ⟨hwf, ⟨v, hv⟩, hp, hc, hf⟩ := h
  exact ⟨_, _, Rcu.updateT_of_wf w hwf hv hp hc hf, rfl, rfl, rfl⟩

/-- C2 witness at `T := Nat`. -/
theorem C2_success_protocol_order_witness :
    ∃ tr r', (Rcu.new (0 : Nat)).updateT 1 = some (tr, true, r') ∧
      tr = [.allocBox (Rcu.new (0 : Nat)).heap.next, .loadPrev (Rcu.new (0 : Nat)).prev_ptr,
            .gatePass, .casOk (Rcu.new (0 : Nat)).data_ptr (Rcu.new (0 : Nat)).heap.next,
            .setGate, .drained, .storePrev (Rcu.new (0 : Nat)).heap.next,
            .freeBox (Rcu.new (0 : Nat)).data_ptr, .clearGate] ∧
      tr.filter Event.isReclaim =
        [.setGate, .drained, .freeBox (Rcu.new (0 : Nat)).data_ptr, .clearGate] ∧
      (tr.filter Event.isFree).length = 1 :=
  C2_success_protocol_order 1 (Rcu.wf_new 0)

/-- C3: when the CAS fails, `update` returns `false`, frees the rejected
allocation exactly once (the free succeeds, so it is no double free, and the
set of live cells is restored exactly, so nothing leaks), and leaves the
cell unchanged: current pointer, previous pointer, reader counter, write
gate, and all stored values are as before the call. -/
theorem C3_cas_fail_frame {T : Type} {r : Rcu T} (w : T)
    (hwf : r.heap.wf) (hf : r.write_flag = false) (hne : r.data_ptr ≠ r.prev_ptr) :
    ∃ tr r', r.updateT w = some (tr, false, r') ∧
      r'.data_ptr = r.data_ptr ∧ r'.prev_ptr = r.prev_ptr ∧
      r'.cur_readers = r.cur_readers ∧ r'.write_flag = r.write_flag ∧
      r'.heap.cells = r.heap.cells ∧
      r'.heap.lookup r.data_ptr = r.heap.lookup r.data_ptr ∧
      tr.filter Event.isFree = [.freeBox r.heap.next] := by
  refine ⟨_, _, Rcu.updateT_cas_fail w hwf hf hne, rfl, rfl, rfl, rfl, rfl, ?_, rfl⟩
  simp [Heap.lookup]

/-- C3 witness: a cell whose `prev_ptr` was superseded by another writer
(`data_ptr = 2`, `prev_ptr = 1`), so the CAS fails. -/
theorem C3_cas_fail_frame_witness :
    ∃ tr r',
      Rcu.updateT (⟨⟨[(1, 10), (2, 20)], 3⟩, 2, 1, 0, false⟩ : Rcu Nat) 99 =
        some (tr, false, r') ∧
      r'.data_ptr = 2 ∧ r'.prev_ptr = 1 ∧ r'.cur_readers = 0 ∧
      r'.write_flag = false ∧ r'.heap.cells = [(1, 10), (2, 20)] ∧
      r'.heap.lookup 2 = Heap.lookup ⟨[(1, 10), (2, 20)], 3⟩ 2 ∧
      tr.filter Event.isFree = [.freeBox 3] :=
  C3_cas_fail_frame (r := (⟨⟨[(1, 10), (2, 20)], 3⟩, 2, 1, 0, false⟩ : Rcu Nat)) 99
    ⟨by decide, by decide, by decide⟩ rfl (by decide)

/-- C4: in every state reachable by a sequence of `new`/`read`/`update`
operations the current pointer is non-null and live in the heap, so the
unsafe dereference-and-clone inside `Rcu::read` — and inside
`RcuSubscriber::read`, which dereferences the same slot — is always of a
valid, not-yet-freed allocation. -/
theorem C4_deref_live {T : Type} {r : Rcu T} (h : Reachable r) :
    0 < r.data_ptr ∧ ∃ v, r.heap.lookup r.data_ptr = some v ∧
      r.readT =
        some ([.gatePass, .incReaders, .deref r.data_ptr, .decReaders], v, r) ∧
      RcuSubscriber.readT r =
        some ([.gatePass, .incReaders, .deref r.data_ptr, .decReaders], v, r) := by
  obtain ⟨hwf, ⟨v, hv⟩, hp, hc, hf⟩ := h.wf
  have hmem := Heap.mem_of_lookup hv
  refine ⟨(hwf.2.2 _ hmem).1, v, hv, Rcu.readT_of_wf hf hc hv, ?_⟩
  show r.readT = _
  exact Rcu.readT_of_wf hf hc hv

/-- C4 witness at the freshly constructed cell. -/
theorem C4_deref_live_witness :
    0 < (Rcu.new (5 : Nat)).data_ptr ∧
    ∃ v, (Rcu.new (5 : Nat)).heap.lookup (Rcu.new 5).data_ptr = some v ∧
      Rcu.readT (Rcu.new 5) =
        some ([.gatePass, .incReaders, .deref (Rcu.new (5 : Nat)).data_ptr, .decReaders],
              v, Rcu.new 5) ∧
      RcuSubscriber.readT (Rcu.new 5) =
        some ([.gatePass, .incReaders, .deref (Rcu.new (5 : Nat)).data_ptr, .decReaders],
              v, Rcu.new 5) :=
  C4_deref_live (Reachable.new 5)

/-- C5: the write gate is false in every state between public operations
(each operation starts from and ends in such a state); inside `update` the
gate actions are exactly set-then-clear when the CAS succeeds, and a failing
`update` performs no gate action at all. -/
theorem C5_gate_discipline {T : Type} :
    (∀ r : Rcu T, Reachable r → r.write_flag = false) ∧
    (∀ (r : Rcu T) (w : T) (tr : List Event) (b : Bool) (r' : Rcu T),
      Reachable r → r.updateT w = some (tr, b, r') →
      tr.filter Event.isGate = [.setGate, .clearGate] ∧ r'.write_flag = false) ∧
    (∀ (r : Rcu T) (w : T) (tr : List Event) (r' : Rcu T),
      r.heap.wf → r.write_flag = false → r.data_ptr ≠ r.prev_ptr →
      r.updateT w = some (tr, false, r') →
      tr.filter Event.isGate = [] ∧ r'.write_flag = false) := by
  refine ⟨fun r hr => hr.wf.2.2.2.2, ?_, ?_⟩
  · intro r w tr b r' hr hu
    obtain ⟨hwf, ⟨v, hv⟩, hp, hc, hf⟩ := hr.wf
    rw [Rcu.updateT_of_wf w hwf hv hp hc hf] at hu
    simp only [Option.some_inj, Prod.mk.injEq] at hu
    obtain ⟨htr, hb, hr'⟩ := hu
    subst htr
    subst hr'
    exact ⟨rfl, rfl⟩
  · intro r w tr r' hwf hf hne hu
    rw [Rcu.updateT_cas_fail w hwf hf hne] at hu
    simp only [Option.some_inj, Prod.mk.injEq] at hu
    obtain ⟨htr, _, hr'⟩ := hu
    subst htr
    subst hr'
    exact ⟨rfl, hf⟩

/-- C5 witness: the gate invariant at a fresh cell, the gate actions of a
concrete successful update, and those of a concrete failing one. -/
theorem C5_gate_discipline_witness :
    (Rcu.new (0 : Nat)).write_flag = false ∧
    ([Event.allocBox 2, .loadPrev 1, .gatePass, .casOk 1 2, .setGate, .drained,
        .storePrev 2, .freeBox 1, .clearGate].filter Event.isGate =
      [.setGate, .clearGate] ∧
      (⟨⟨[(2, 1)], 3⟩, 2, 2, 0, false⟩ : Rcu Nat).write_flag = false) ∧
    ([Event.allocBox 3, .loadPrev 1, .gatePass, .casFail 2 1 3, .freeBox 3].filter
        Event.isGate = [] ∧
      (⟨⟨[(1, 10), (2, 20)], 4⟩, 2, 1, 0, false⟩ : Rcu Nat).write_flag = false) :=
  ⟨C5_gate_discipline.1 (Rcu.new 0) (Reachable.new 0),
   C5_gate_discipline.2.1 (Rcu.new 0) 1 _ true _ (Reachable.new 0) rfl,
   C5_gate_discipline.2.2 (⟨⟨[(1, 10), (2, 20)], 3⟩, 2, 1, 0, false⟩ : Rcu Nat) 99 _ _
     ⟨by decide, by decide, by decide⟩ rfl (by decide) rfl⟩

/-- C6: in a sequential execution (no concurrent writer), `update` never
fails: from every reachable state the CAS succeeds and `update` returns
`true`. -/
theorem C6_sequential_update_succeeds {T : Type} {r : Rcu T} (h : Reachable r) (w : T) :
    ∃ r', r.update w = some (true, r') := by
  obtain ⟨hwf, ⟨v, hv⟩, hp, hc, hf⟩ := h.wf
  exact ⟨_, Rcu.update_of_wf w hwf hv hp hc hf⟩

/-- C6 witness at the freshly constructed cell. -/
theorem C6_sequential_update_succeeds_witness :
    ∃ r', (Rcu.new (3 : Nat)).update 4 = some (true, r') :=
  C6_sequential_update_succeeds (Reachable.new 3) 4

/-- C7: the subscriber's read is observationally equal to the cell's own
read: on every cell state it performs the same action trace (gate wait,
register, dereference-and-clone, unregister), returns the same value and
leaves the same state.  The subscriber is read-only by construction: it
carries only the cell's data pointer, reader counter and write flag, and
`read` is its sole operation. -/
theorem C7_subscriber_read_equiv {T : Type} (r : Rcu T) :
    RcuSubscriber.readT r = Rcu.readT r := rfl

/-- C9: in every state left behind by a completed public operation the
previous-pointer marker equals the current data pointer, and this is what
makes the next uncontended CAS — hence the next `update` — succeed. -/
theorem C9_prev_eq_data {T : Type} {r : Rcu T} (h : Reachable r) :
    r.prev_ptr = r.data_ptr ∧ ∀ w, ∃ r', r.update w = some (true, r') := by
  obtain ⟨hwf, ⟨v, hv⟩, hp, hc, hf⟩ := h.wf
  exact ⟨hp, fun w => ⟨_, Rcu.update_of_wf w hwf hv hp hc hf⟩⟩

/-- C9 witness at the freshly constructed cell. -/
theorem C9_prev_eq_data_witness :
    (Rcu.new (1 : Nat)).prev_ptr = (Rcu.new (1 : Nat)).data_ptr ∧
    ∃ r', (Rcu.new (1 : Nat)).update 2 = some (true, r') :=
  ⟨(C9_prev_eq_data (Reachable.new 1)).1, (C9_prev_eq_data (Reachable.new 1)).2 2⟩

/-- C10: `read` does not mutate the cell or the protected value: from any
reachable state it returns with the state exactly as before the call (same
heap, pointers and gate, reader counter back at its pre-call value), its
actions being exactly register, dereference, unregister, where registration
increments the counter by exactly one and unregistration decrements it by
exactly one. -/
theorem C10_read_frame {T : Type} {r : Rcu T} (h : Reachable r) :
    ∃ v, r.readT =
        some ([.gatePass, .incReaders, .deref r.data_ptr, .decReaders], v, r) ∧
      fetchAdd32 r.cur_readers = r.cur_readers + 1 ∧
      fetchSub32 (fetchAdd32 r.cur_readers) = r.cur_readers := by
  obtain ⟨hwf, ⟨v, hv⟩, hp, hc, hf⟩ := h.wf
  refine ⟨v, Rcu.readT_of_wf hf hc hv, ?_, ?_⟩
  · rw [hc]; norm_num [fetchAdd32]
  · rw [hc]; exact fetch_roundtrip_zero

/-- C10 witness at the freshly constructed cell. -/
theorem C10_read_frame_witness :
    ∃ v, (Rcu.new (9 : Nat)).readT =
        some ([.gatePass, .incReaders, .deref (Rcu.new (9 : Nat)).data_ptr, .decReaders],
              v, Rcu.new 9) ∧
      fetchAdd32 (Rcu.new (9 : Nat)).cur_readers = (Rcu.new (9 : Nat)).cur_readers + 1 ∧
      fetchSub32 (fetchAdd32 (Rcu.new (9 : Nat)).cur_readers) =
        (Rcu.new (9 : Nat)).cur_readers :=
  C10_read_frame (Reachable.new 9)

/-- C8 (guard variant, modelled from the spec — this iteration is not under
`src/`): for a generation with a nonempty set of outstanding guards,
releasing the guards in any drop order frees the generation exactly once,
precisely at the release that drives the counter from one to zero (the last
guard): the whole sequence performs exactly one free and ends with the
generation freed and no guard outstanding, while every proper prefix of the
drop order performs no free and leaves the generation unfreed. -/
theorem C8_guard_zero_crossing {T : Type} (v : T) :
    ∀ (ds l : List Nat), l.Nodup → ds.Perm l → l ≠ [] →
      GenState.releaseSeq ⟨v, l, false⟩ ds = some (⟨v, [], true⟩, 1) ∧
      ∀ p, p <+: ds → p ≠ ds →
        ∃ g', GenState.releaseSeq ⟨v, l, false⟩ p = some (g', 0) ∧ g'.freed = false := by
  intro ds
  induction ds with
  | nil =>
    intro l _ hperm hne
    exact absurd hperm.symm.eq_nil hne
  | cons i rest ih =>
    intro l hnd hperm hne
    have hi : i ∈ l := hperm.subset (List.mem_cons_self i rest)
    have hrest : rest.Perm (l.erase i) := (List.cons_perm_iff_perm_erase.mp hperm).2
    by_cases hemp : l.erase i = []
    · have hrnil : rest = [] := by
        rw [hemp] at hrest
        exact hrest.eq_nil
      subst hrnil
      refine ⟨?_, ?_⟩
      · simp [GenState.releaseSeq, GenState.release, hi, hemp]
      · intro p hp hpne
        have hpnil : p = [] := by
          cases p with
          | nil => rfl
          | cons a p' =>
            obtain ⟨ha, hp'⟩ := List.cons_prefix_cons.mp hp
            have := List.eq_nil_of_prefix_nil hp'
            subst ha
            subst this
            exact absurd rfl hpne
        subst hpnil
        exact ⟨⟨v, l, false⟩, rfl, rfl⟩
    · obtain ⟨hseq, hpre⟩ := ih (l.erase i) (hnd.erase i) hrest hemp
      refine ⟨?_, ?_⟩
      · simp [GenState.releaseSeq, GenState.release, hi, hemp, hseq]
      · intro p hp hpne
        cases p with
        | nil => exact ⟨⟨v, l, false⟩, rfl, rfl⟩
        | cons a p' =>
          obtain ⟨ha, hp'⟩ := List.cons_prefix_cons.mp hp
          subst ha
          have hp'ne : p' ≠ rest := fun hh => hpne (by rw [hh])
          obtain ⟨g', hg', hgf⟩ := hpre p' hp' hp'ne
          refine ⟨g', ?_, hgf⟩
          simp [GenState.releaseSeq, GenState.release, hi, hemp, hg']

/-- C8 witness: two guards over one generation, dropped in the order 2, 1:
the whole sequence frees exactly once, the proper prefix frees nothing. -/
theorem C8_guard_zero_crossing_witness :
    GenState.releaseSeq (⟨0, [1, 2], false⟩ : GenState Nat) [2, 1] =
      some (⟨0, [], true⟩, 1) ∧
    ∃ g', GenState.releaseSeq (⟨0, [1, 2], false⟩ : GenState Nat) [2] = some (g', 0) ∧
      g'.freed = false :=
  ⟨(C8_guard_zero_crossing 0 [2, 1] [1, 2] (by decide) (by decide) (by decide)).1,
   (C8_guard_zero_crossing 0 [2, 1] [1, 2] (by decide) (by decide) (by decide)).2
     [2] ⟨[1], rfl⟩ (by decide)⟩

end RcuModel
